import Mathlib

/-!
# Verification of the pymodbus core specification

A shallow embedding of the pymodbus Modbus stack: datastore blocks
(sequential and sparse), the exception hierarchy, the PDU codec for the
function codes exercised by the claims, MBAP/SOCKET framing, and the
server request pipeline.  The exception hierarchy is translated directly
from `pymodbus/exceptions.py`; the remaining components are modelled from
the specification text, as indicated on each definition.
-/

deriving instance DecidableEq for Except

namespace Pymodbus

/-! ## Exception codes (protocol-level) -/

/-- Modelled from the spec: the Modbus protocol exception codes used by the
datastore and the server pipeline (spec section 4.D "Exception response"
and section 4.G).  The numeric values are fixed by the Modbus standard. -/
inductive ExcCodes where
  | ILLEGAL_FUNCTION
  | ILLEGAL_ADDRESS
  | ILLEGAL_VALUE
  | SLAVE_DEVICE_FAILURE
  | SLAVE_BUSY
  | GATEWAY_TARGET_FAILED_TO_RESPOND
deriving DecidableEq, Repr

/-- Modelled from the spec: the one-byte value of each exception code
(codes 1,2,3,4,6 per section 4.D; code 11 per section 4.G). -/
def ExcCodes.value : ExcCodes → Nat
  | .ILLEGAL_FUNCTION => 1
  | .ILLEGAL_ADDRESS => 2
  | .ILLEGAL_VALUE => 3
  | .SLAVE_DEVICE_FAILURE => 4
  | .SLAVE_BUSY => 6
  | .GATEWAY_TARGET_FAILED_TO_RESPOND => 11

/-! ## The library exception hierarchy (`pymodbus/exceptions.py`) -/

/-- The concrete classes of the exception hierarchy in
`pymodbus/exceptions.py`: the base `ModbusException` plus its seven
subclasses. -/
inductive ModbusExceptionKind where
  | base
  | ioError
  | parameter
  | noSuchId
  | notImplemented
  | connection
  | invalidMessage
  | messageRegister
deriving DecidableEq, Repr

/-- The message stored by each exception constructor: every subclass
prepends its bracketed tag to the caller's string, exactly as in
`pymodbus/exceptions.py`. -/
def ModbusExceptionKind.message : ModbusExceptionKind → String → String
  | .base, s => s
  | .ioError, s => "[Input/Output] " ++ s
  | .parameter, s => "[Invalid Parameter] " ++ s
  | .noSuchId, s => "[No Such id] " ++ s
  | .notImplemented, s => "[Not Implemented] " ++ s
  | .connection, s => "[Connection] " ++ s
  | .invalidMessage, s => "[Invalid Message] " ++ s
  | .messageRegister, s => "[Error registering message] " ++ s

/-- `ModbusException.isError` from `pymodbus/exceptions.py`: defined once on
the base class, returning `True`; every subclass inherits it unchanged. -/
def ModbusExceptionKind.isError (_k : ModbusExceptionKind) : Bool := true

/-- `ModbusException.__str__` from `pymodbus/exceptions.py`. -/
def ModbusExceptionKind.toDisplay (k : ModbusExceptionKind) (s : String) : String :=
  "Modbus Error: " ++ k.message s

/-! ## Association lists (the mapping inside a sparse block) -/

/-- Lookup in an association list keyed by addresses, first match wins. -/
def assocLookup {α : Type} : List (Nat × α) → Nat → Option α
  | [], _ => none
  | (k, v) :: t, a => if k = a then some v else assocLookup t a

/-- Insert-or-overwrite in an association list keyed by addresses. -/
def assocInsert {α : Type} : List (Nat × α) → Nat → α → List (Nat × α)
  | [], a, v => [(a, v)]
  | (k, w) :: t, a, v => if k = a then (a, v) :: t else (k, w) :: assocInsert t a v

/-! ## Sparse data block -/

/-- Modelled from the spec: `ModbusSparseDataBlock` (not under `src/`; spec
section 3 "Sparse block" and section 4.A).  The block is a mapping from
16-bit addresses to values together with the mutability flag. -/
structure ModbusSparseDataBlock where
  values : List (Nat × Nat)
  mutable : Bool
deriving DecidableEq, Repr

/-- Modelled from the spec: sparse `validate(addr, count)` — a range is
valid iff every address of `addr .. addr+count-1` is present in the
mapping (spec section 4.A). -/
def ModbusSparseDataBlock.validate (b : ModbusSparseDataBlock)
    (address count : Nat) : Bool :=
  (List.range count).all fun k => (assocLookup b.values (address + k)).isSome

/-- Modelled from the spec: sparse `getValues(addr, count)` — returns
`ILLEGAL_ADDRESS` if any address of the range is missing, otherwise the
list of present values in address order (spec section 3). -/
def ModbusSparseDataBlock.getValues (b : ModbusSparseDataBlock)
    (address count : Nat) : Except ExcCodes (List Nat) :=
  if b.validate address count then
    .ok ((List.range count).map fun k => (assocLookup b.values (address + k)).getD 0)
  else
    .error .ILLEGAL_ADDRESS

/-- Modelled from the spec: the value side of a sparse-block mapping entry —
"a mapping `u16→V|sequence of V`" (spec section 4.A): either a single value
or a sequence of values laid out at consecutive addresses. -/
inductive SparseValue where
  | single (v : Nat)
  | seq (vs : List Nat)
deriving DecidableEq, Repr

/-- Modelled from the spec: the four shapes of argument accepted by the
sparse-block constructor — `None`, a list, a mapping, or a bare scalar
(spec section 4.A "Sparse-block policy"). -/
inductive SparseInit where
  | noneV
  | listV (vs : List Nat)
  | mapV (entries : List (Nat × SparseValue))
  | scalarV (v : Nat)
deriving DecidableEq, Repr

/-- Modelled from the spec: expansion of a mapping argument — a single value
is stored at its key, a sequence of values is stored at consecutive
addresses starting at its key (spec sections 3 and 4.A). -/
def expandEntries (entries : List (Nat × SparseValue)) : List (Nat × Nat) :=
  entries.flatMap fun p =>
    match p.2 with
    | .single v => [(p.1, v)]
    | .seq vs => vs.enum.map fun q => (p.1 + q.1, q.2)

/-- Fold a list of address/value pairs into a mapping, later pairs
overwriting earlier ones. -/
def fromEntries (entries : List (Nat × Nat)) : List (Nat × Nat) :=
  entries.foldl (fun acc p => assocInsert acc p.1 p.2) []

/-- Modelled from the spec: sparse-block construction — `None` yields an
empty block, a list is auto-indexed from 0, a mapping is expanded, and a
bare scalar is a parameter error (spec section 4.A "Sparse-block
policy"). -/
def ModbusSparseDataBlock.create (mutableFlag : Bool) :
    SparseInit → Except ModbusExceptionKind ModbusSparseDataBlock
  | .noneV => .ok ⟨[], mutableFlag⟩
  | .listV vs => .ok ⟨vs.enum, mutableFlag⟩
  | .mapV entries => .ok ⟨fromEntries (expandEntries entries), mutableFlag⟩
  | .scalarV _ => .error .parameter

/-- Whether a batch of address/value pairs touches an address that is not
already present in the block. -/
def touchesAbsent (b : ModbusSparseDataBlock) (entries : List (Nat × Nat)) : Bool :=
  entries.any fun p => (assocLookup b.values p.1).isNone

/-- Write a batch of address/value pairs into the mapping. -/
def writeEntries (vals : List (Nat × Nat)) (entries : List (Nat × Nat)) :
    List (Nat × Nat) :=
  entries.foldl (fun acc p => assocInsert acc p.1 p.2) vals

/-- Modelled from the spec: sparse `setValues` as called by the programmer —
on a fixed (`mutable = false`) block a write touching an unknown address
raises a parameter error; otherwise the pairs are written, new keys being
added on a mutable block (spec sections 3 and 4.A). -/
def ModbusSparseDataBlock.setValues (b : ModbusSparseDataBlock)
    (entries : List (Nat × Nat)) :
    Except ModbusExceptionKind ModbusSparseDataBlock :=
  if !b.mutable && touchesAbsent b entries then
    .error .parameter
  else
    .ok ⟨writeEntries b.values entries, b.mutable⟩

/-- Modelled from the spec: a runtime-originated write (one arriving from a
protocol peer through the server pipeline) — the range is validated
against the present keys first, so a write touching an unknown address
yields the `ILLEGAL_ADDRESS` protocol exception instead of raising (spec
sections 4.A and 4.G). -/
def ModbusSparseDataBlock.runtimeSetValues (b : ModbusSparseDataBlock)
    (entries : List (Nat × Nat)) : Except ExcCodes ModbusSparseDataBlock :=
  if touchesAbsent b entries then
    .error .ILLEGAL_ADDRESS
  else
    .ok ⟨writeEntries b.values entries, b.mutable⟩

/-! ## Packed-bit encoding (spec section 4.D) -/

/-- Value of up to eight bits, LSB first. -/
def packByte (bits : List Bool) : Nat :=
  bits.foldr (fun b acc => (if b then 1 else 0) + 2 * acc) 0

/-- Pack bits into bytes, eight at a time; the fuel argument only bounds
the recursion depth and is irrelevant once it dominates the length. -/
def packBitsGo : Nat → List Bool → List Nat
  | _, [] => []
  | 0, _ :: _ => []
  | fuel + 1, b :: t =>
    packByte ((b :: t).take 8) :: packBitsGo fuel ((b :: t).drop 8)

/-- Modelled from the spec: the packed-bit encoding of a coil payload —
"bit `k` of byte `⌊k/8⌋` is the `(k mod 8)`-th bit from the LSB"
(spec section 4.D "Packed-bit encoding"). -/
def packBits (bits : List Bool) : List Nat :=
  packBitsGo bits.length bits

/-- Modelled from the spec: the client-side decoding of a packed-bit
payload — every byte is expanded into its eight bits, LSB first, so the
caller receives `8 × byte_count` bits (spec section 4.D). -/
def unpackBits (bytes : List Nat) : List Bool :=
  bytes.flatMap fun b => (List.range 8).map fun i => b.testBit i

/-! ## Sequential data block -/

/-- Modelled from the spec: `ModbusSequentialDataBlock` — a base address and
an ordered sequence of values; address `a` is valid iff
`base ≤ a < base + len` (spec section 3 "Sequential block").  Bit blocks
instantiate `α := Bool`, register blocks `α := Nat`. -/
structure ModbusSequentialDataBlock (α : Type) where
  address : Nat
  values : List α
deriving DecidableEq, Repr

/-- Modelled from the spec: sequential `validate(addr, count)` — the range
must lie entirely inside the block (spec section 3). -/
def ModbusSequentialDataBlock.validate {α : Type}
    (b : ModbusSequentialDataBlock α) (address count : Nat) : Bool :=
  decide (b.address ≤ address) && decide (address + count ≤ b.address + b.values.length)

/-- Modelled from the spec: sequential `getValues(addr, count)` — any
overflow yields `ILLEGAL_ADDRESS`, otherwise the contiguous slice (spec
sections 3 and 4.A). -/
def ModbusSequentialDataBlock.getValues {α : Type}
    (b : ModbusSequentialDataBlock α) (address count : Nat) :
    Except ExcCodes (List α) :=
  if b.validate address count then
    .ok ((b.values.drop (address - b.address)).take count)
  else
    .error .ILLEGAL_ADDRESS

/-- Overwrite `vs.length` elements of `l` starting at index `k`. -/
def listOverwrite {α : Type} (l : List α) (k : Nat) (vs : List α) : List α :=
  l.take k ++ vs ++ l.drop (k + vs.length)

/-- Modelled from the spec: sequential `setValues(addr, values)` — any
overflow yields `ILLEGAL_ADDRESS`, otherwise the slice starting at `addr`
is overwritten (spec sections 3 and 4.A). -/
def ModbusSequentialDataBlock.setValues {α : Type}
    (b : ModbusSequentialDataBlock α) (address : Nat) (vs : List α) :
    Except ExcCodes (ModbusSequentialDataBlock α) :=
  if b.validate address vs.length then
    .ok ⟨b.address, listOverwrite b.values (address - b.address) vs⟩
  else
    .error .ILLEGAL_ADDRESS

/-! ## Device context and PDUs -/

/-- Modelled from the spec: `ModbusDeviceContext` — four blocks keyed `di`,
`co`, `hr`, `ir` (spec section 3 "Device context"). -/
structure ModbusDeviceContext where
  di : ModbusSequentialDataBlock Bool
  co : ModbusSequentialDataBlock Bool
  hr : ModbusSequentialDataBlock Nat
  ir : ModbusSequentialDataBlock Nat
deriving DecidableEq, Repr

/-- Modelled from the spec: the request PDUs needed by the claims, from the
function-code matrix of spec section 4.D. -/
inductive ModbusPdu where
  | readCoils (address quantity : Nat)
  | readHoldingRegisters (address quantity : Nat)
  | writeSingleRegister (address value : Nat)
  | writeMultipleCoils (address : Nat) (bits : List Bool)
deriving DecidableEq, Repr

/-- The function code of each request PDU (spec section 4.D). -/
def ModbusPdu.functionCode : ModbusPdu → Nat
  | .readCoils .. => 1
  | .readHoldingRegisters .. => 3
  | .writeSingleRegister .. => 6
  | .writeMultipleCoils .. => 15

/-- Modelled from the spec: the response PDUs of the same function codes
plus the exception response, which carries the failing function code and
one exception code (spec section 4.D). -/
inductive ModbusResponse where
  | readCoilsResponse (bits : List Bool)
  | readHoldingRegistersResponse (registers : List Nat)
  | writeSingleRegisterResponse (address value : Nat)
  | writeMultipleCoilsResponse (address quantity : Nat)
  | exceptionResponse (function_code : Nat) (code : ExcCodes)
deriving DecidableEq, Repr

/-- Modelled from the spec: `isError()` is true exactly for exception PDUs
(spec section 4.D "Exception response"). -/
def ModbusResponse.isError : ModbusResponse → Bool
  | .exceptionResponse _ _ => true
  | _ => false

/-- Modelled from the spec: `pdu.update_datastore(ctx)` — each request
performs its datastore operation and returns either a response PDU or an
exception response (spec sections 4.D and 4.G). -/
def updateDatastore (pdu : ModbusPdu) (ctx : ModbusDeviceContext) :
    ModbusDeviceContext × ModbusResponse :=
  match pdu with
  | .readCoils a q =>
    match ctx.co.getValues a q with
    | .ok bits => (ctx, .readCoilsResponse bits)
    | .error c => (ctx, .exceptionResponse 1 c)
  | .readHoldingRegisters a q =>
    match ctx.hr.getValues a q with
    | .ok regs => (ctx, .readHoldingRegistersResponse regs)
    | .error c => (ctx, .exceptionResponse 3 c)
  | .writeSingleRegister a v =>
    match ctx.hr.setValues a [v] with
    | .ok hr2 => ({ ctx with hr := hr2 }, .writeSingleRegisterResponse a v)
    | .error c => (ctx, .exceptionResponse 6 c)
  | .writeMultipleCoils a bits =>
    match ctx.co.setValues a bits with
    | .ok co2 => ({ ctx with co := co2 }, .writeMultipleCoilsResponse a bits.length)
    | .error c => (ctx, .exceptionResponse 15 c)

/-! ## Server context and request handling -/

/-- Modelled from the spec: `ModbusServerContext` — single mode (one device
context answers every device-id) or multi mode (mapping device-id to
device context) (spec section 3 "Server context"). -/
inductive ModbusServerContext where
  | single (device : ModbusDeviceContext)
  | multi (devices : List (Nat × ModbusDeviceContext))
deriving DecidableEq, Repr

/-- Modelled from the spec: the server flags `broadcast_enable` and
`ignore_missing_devices` (spec section 6 "Server control surface"). -/
structure ServerFlags where
  broadcast_enable : Bool
  ignore_missing_devices : Bool
deriving DecidableEq, Repr

/-- Device-id routing: single mode answers every id, multi mode looks the
id up in the mapping (spec section 3). -/
def lookupDevice : ModbusServerContext → Nat → Option ModbusDeviceContext
  | .single d, _ => some d
  | .multi ds, dev_id => assocLookup ds dev_id

/-- Store an updated device context back under its device-id. -/
def storeDevice : ModbusServerContext → Nat → ModbusDeviceContext → ModbusServerContext
  | .single _, _, d => .single d
  | .multi ds, dev_id, d => .multi (assocInsert ds dev_id d)

/-- The outcome of handling one decoded request: reply with a response PDU,
drop the request silently, or close the connection. -/
inductive ServerAction where
  | reply (r : ModbusResponse)
  | drop
  | close
deriving DecidableEq, Repr

/-- Modelled from the spec: handling of a non-broadcast request — an unknown
device-id is dropped silently when `ignore_missing_devices` is set and
otherwise answered with exception code 11
(`GATEWAY_TARGET_FAILED_TO_RESPOND`); a known device-id is dispatched via
`update_datastore` (spec section 4.G). -/
def handleNormal (flags : ServerFlags) (ctx : ModbusServerContext)
    (dev_id : Nat) (pdu : ModbusPdu) : ModbusServerContext × ServerAction :=
  match lookupDevice ctx dev_id with
  | none =>
    if flags.ignore_missing_devices then (ctx, .drop)
    else (ctx, .reply (.exceptionResponse pdu.functionCode .GATEWAY_TARGET_FAILED_TO_RESPOND))
  | some d =>
    let step := updateDatastore pdu d
    (storeDevice ctx dev_id step.1, .reply step.2)

/-- Modelled from the spec: broadcast application — the PDU is applied to
the datastore of every device of the server context (spec section 4.G). -/
def applyBroadcast (pdu : ModbusPdu) : ModbusServerContext → ModbusServerContext
  | .single d => .single (updateDatastore pdu d).1
  | .multi ds => .multi (ds.map fun p => (p.1, (updateDatastore pdu p.2).1))

/-- Modelled from the spec: the server request dispatch — a request with
`dev_id = 0` under enabled broadcast semantics is applied to every device
and produces no response; otherwise it is handled as a normal request
(spec section 4.G). -/
def handleRequest (flags : ServerFlags) (ctx : ModbusServerContext)
    (dev_id : Nat) (pdu : ModbusPdu) : ModbusServerContext × ServerAction :=
  if dev_id = 0 && flags.broadcast_enable then
    (applyBroadcast pdu ctx, .drop)
  else
    handleNormal flags ctx dev_id pdu

/-! ## MBAP / SOCKET framing and the byte-level pipeline -/

/-- Big-endian encoding of a 16-bit value as two bytes. -/
def u16be (v : Nat) : List Nat := [v / 256 % 256, v % 256]

/-- Modelled from the spec: MBAP frame construction — header
`transaction_id | protocol_id = 0 | length | unit_id` followed by the PDU,
with `length` counting the bytes after the length field (spec
section 4.E "MBAP"). -/
def mbapEncode (tid : Nat) (unit_id : Nat) (pdu : List Nat) : List Nat :=
  u16be tid ++ u16be 0 ++ u16be (pdu.length + 1) ++ [unit_id] ++ pdu

/-- Modelled from the spec: MBAP frame decoding — a frame is complete once
`6 + length` bytes are buffered; a nonzero `protocol_id` drops the frame
(spec section 4.E "MBAP").  Returns `(transaction_id, unit_id, pdu)`. -/
def mbapDecode (buf : List Nat) : Option (Nat × Nat × List Nat) :=
  match buf with
  | t1 :: t0 :: p1 :: p0 :: l1 :: l0 :: rest =>
    let pid := p1 * 256 + p0
    let len := l1 * 256 + l0
    if pid ≠ 0 then none
    else if rest.length < len then none
    else
      match rest.take len with
      | u :: pdu => some (t1 * 256 + t0, u, pdu)
      | [] => none
  | _ => none

/-- Modelled from the spec: request-PDU decoding with validation at decode
time — quantity ranges 1..2000 for bits and 1..125 for registers; a
malformed payload is a decode failure, not an exception reply (spec
section 4.D). -/
def decodeRequest : List Nat → Option ModbusPdu
  | 1 :: a1 :: a0 :: q1 :: q0 :: [] =>
    let qty := q1 * 256 + q0
    if 1 ≤ qty ∧ qty ≤ 2000 then some (.readCoils (a1 * 256 + a0) qty) else none
  | 3 :: a1 :: a0 :: q1 :: q0 :: [] =>
    let qty := q1 * 256 + q0
    if 1 ≤ qty ∧ qty ≤ 125 then some (.readHoldingRegisters (a1 * 256 + a0) qty) else none
  | 6 :: a1 :: a0 :: v1 :: v0 :: [] =>
    some (.writeSingleRegister (a1 * 256 + a0) (v1 * 256 + v0))
  | _ => none

/-- Modelled from the spec: response-PDU encoding — function code, then the
payload of the function-code matrix; bit payloads are packed, register
payloads are big-endian 16-bit words, an exception response is
`FC | 0x80` followed by the exception code (spec section 4.D). -/
def encodeResponse : ModbusResponse → List Nat
  | .readCoilsResponse bits =>
    1 :: (packBits bits).length :: packBits bits
  | .readHoldingRegistersResponse regs =>
    3 :: 2 * regs.length :: (regs.map u16be).flatten
  | .writeSingleRegisterResponse a v => 6 :: (u16be a ++ u16be v)
  | .writeMultipleCoilsResponse a q => 15 :: (u16be a ++ u16be q)
  | .exceptionResponse fc c => [(fc + 128) % 256, c.value]

/-- Modelled from the spec: the server ingress pipeline for one buffered
frame — framer decode, PDU decode, dispatch, response-PDU encode, framer
encode; a decode failure or a dropped request produces no bytes (spec
sections 2 and 4.G). -/
def serverProcessFrame (flags : ServerFlags) (ctx : ModbusServerContext)
    (buf : List Nat) : ModbusServerContext × Option (List Nat) :=
  match mbapDecode buf with
  | none => (ctx, none)
  | some (tid, dev_id, pduBytes) =>
    match decodeRequest pduBytes with
    | none => (ctx, none)
    | some pdu =>
      match handleRequest flags ctx dev_id pdu with
      | (ctx2, .reply r) => (ctx2, some (mbapEncode tid dev_id (encodeResponse r)))
      | (ctx2, _) => (ctx2, none)

/-- Modelled from the spec: the two datagram/stream carriers that use the
SOCKET framing, which reuses MBAP byte-for-byte (spec section 4.E
"SOCKET framing variant"). -/
inductive Carrier where
  | tcp
  | udp
deriving DecidableEq, Repr

/-- Modelled from the spec: the inbound pipeline is byte-identical on the
TCP and UDP carriers, since the SOCKET framing reuses MBAP byte-for-byte
(spec section 4.E). -/
def processInbound (_c : Carrier) (flags : ServerFlags)
    (ctx : ModbusServerContext) (buf : List Nat) :
    ModbusServerContext × Option (List Nat) :=
  serverProcessFrame flags ctx buf

/-! ## Server lifecycle (spec section 5) -/

/-- Modelled from the spec: the three server variants sharing the lifecycle
contract (`ModbusTcpServer`, `ModbusTlsServer`, `ModbusUdpServer`). -/
inductive ServerKind where
  | tcp
  | tls
  | udp
deriving DecidableEq, Repr

/-- Modelled from the spec: the server lifecycle states
`create → bind → serve_forever → shutdown` (spec section 5
"Lifecycle"). -/
inductive ServerState where
  | created
  | serving
  | stopped
deriving DecidableEq, Repr

/-- The invalid-state (runtime) error raised by a second `serve_forever`. -/
inductive RuntimeErrorKind where
  | invalidState
deriving DecidableEq, Repr

/-- Modelled from the spec: `serve_forever` — starts serving from the
created state; calling it on an already-serving (or shut down) server
fails with an invalid-state error, identically for the TCP, TLS and UDP
variants (spec section 5 "Lifecycle"). -/
def serve_forever (_k : ServerKind) :
    ServerState → Except RuntimeErrorKind ServerState
  | .created => .ok .serving
  | .serving => .error .invalidState
  | .stopped => .error .invalidState

/-! ## Client-side delivered payloads -/

/-- Modelled from the spec: the register payload delivered to the caller of
a holding-register read — the response carries `N×u16`, decoded back into
the list of registers (spec sections 4.D and 4.H). -/
def deliveredRegisters (ctx : ModbusDeviceContext) (address count : Nat) :
    Except ExcCodes (List Nat) :=
  ctx.hr.getValues address count

/-- Modelled from the spec: the bit payload delivered to the caller of a
coils read — the server packs the requested bits into `⌈count/8⌉` bytes
and the client expands every byte back into eight bits (spec
section 4.D "Packed-bit encoding" and section 4.H). -/
def deliveredCoils (ctx : ModbusDeviceContext) (address count : Nat) :
    Except ExcCodes (List Bool) :=
  match ctx.co.getValues address count with
  | .ok bits => .ok (unpackBits (packBits bits))
  | .error c => .error c

/-- A result as seen by a caller of the client façade: either a response
PDU (possibly an exception response) or a library error from the
exception hierarchy (spec sections 4.H and 7). -/
inductive ClientResult where
  | response (r : ModbusResponse)
  | libError (k : ModbusExceptionKind) (msg : String)
deriving DecidableEq, Repr

/-- The single error predicate used by callers: a response is an error iff
it is an exception PDU, a library error is always an error, via
`ModbusException.isError` from `pymodbus/exceptions.py`. -/
def ClientResult.isError : ClientResult → Bool
  | .response r => r.isError
  | .libError k _ => k.isError

/-! ## Concrete contexts used by the end-to-end scenarios -/

/-- The device context of the server tests: every block holds 100 entries
from address 0, registers all 17 (bit blocks cleared). -/
def testDeviceContext : ModbusDeviceContext :=
  ⟨⟨0, List.replicate 100 false⟩, ⟨0, List.replicate 100 false⟩,
   ⟨0, List.replicate 100 17⟩, ⟨0, List.replicate 100 17⟩⟩

/-- After FC 15 has written 21 true bits at address 1. -/
def coilsAfterWrite : ModbusDeviceContext :=
  (updateDatastore (.writeMultipleCoils 1 (List.replicate 21 true)) testDeviceContext).1

/-- The bit list delivered to the client by an FC 1 read of 21 coils at
address 1 after that write: the server packs the bits and the client
expands the payload bytes. -/
def coilsReadBack : List Bool :=
  match (updateDatastore (.readCoils 1 21) coilsAfterWrite).2 with
  | .readCoilsResponse bits => unpackBits (packBits bits)
  | _ => []

/-! ## Helper lemmas -/

theorem packBitsGo_irrel (f1 : Nat) :
    ∀ (bits : List Bool) (f2 : Nat), bits.length ≤ f1 → bits.length ≤ f2 →
      packBitsGo f1 bits = packBitsGo f2 bits := by
  induction f1 with
  | zero =>
    intro bits f2 h1 _
    have : bits = [] := List.eq_nil_of_length_eq_zero (Nat.le_zero.mp h1)
    subst this
    cases f2 <;> rfl
  | succ g ih =>
    intro bits f2 h1 h2
    cases bits with
    | nil => cases f2 <;> rfl
    | cons b t =>
      cases f2 with
      | zero => simp at h2
      | succ g2 =>
        show packByte _ :: packBitsGo g ((b :: t).drop 8) =
          packByte _ :: packBitsGo g2 ((b :: t).drop 8)
        have hd : ((b :: t).drop 8).length ≤ g := by
          simp only [List.length_drop, List.length_cons] at *
          omega
        have hd2 : ((b :: t).drop 8).length ≤ g2 := by
          simp only [List.length_drop, List.length_cons] at *
          omega
        rw [ih _ g2 hd hd2]

theorem packBits_nil : packBits [] = [] := rfl

theorem packBits_cons (bits : List Bool) (h : bits ≠ []) :
    packBits bits = packByte (bits.take 8) :: packBits (bits.drop 8) := by
  cases bits with
  | nil => exact absurd rfl h
  | cons b t =>
    show packBitsGo (t.length + 1) (b :: t) = _
    show packByte _ :: packBitsGo t.length ((b :: t).drop 8) = _
    have hlen : ((b :: t).drop 8).length ≤ t.length := by
      simp only [List.length_drop, List.length_cons]
      omega
    rw [packBitsGo_irrel t.length _ ((b :: t).drop 8).length hlen (le_refl _)]
    rfl

theorem packByte_testBit (l : List Bool) (i : Nat) :
    (packByte l).testBit i = l.getD i false := by
  induction l generalizing i with
  | nil => simp [packByte, List.getD]
  | cons b t ih =>
    have hstep : packByte (b :: t) = (if b then 1 else 0) + 2 * packByte t := rfl
    cases i with
    | zero =>
      rw [hstep]
      rcases b with _ | _ <;>
        simp [Nat.testBit, Nat.shiftRight_zero, Nat.and_one_is_mod,
          Nat.add_mul_mod_self_left]
    | succ j =>
      rw [hstep, Nat.testBit_succ]
      have hdiv : ((if b then 1 else 0) + 2 * packByte t) / 2 = packByte t := by
        rcases b with _ | _ <;> simp <;> omega
      rw [hdiv]
      simpa using ih j

theorem packBits_length (bits : List Bool) :
    (packBits bits).length = (bits.length + 7) / 8 := by
  generalize hn : bits.length = n
  induction n using Nat.strong_induction_on generalizing bits with
  | _ n ih =>
    by_cases h : bits = []
    · subst h
      simp [packBits_nil] at hn ⊢
      omega
    · rw [packBits_cons bits h, List.length_cons]
      have hpos : 0 < n := by
        subst hn
        exact List.length_pos.mpr h
      have hd : (bits.drop 8).length = n - 8 := by
        simp [List.length_drop, hn]
      rcases Nat.lt_or_ge n 9 with hlt | hge
      · have : bits.drop 8 = [] ∨ (bits.drop 8).length < n := by
          rcases Nat.eq_zero_or_pos (n - 8) with h0 | hp
          · left
            exact List.eq_nil_of_length_eq_zero (by omega)
          · right
            omega
        have hrec : (packBits (bits.drop 8)).length = (n - 8 + 7) / 8 :=
          ih (n - 8) (by omega) (bits.drop 8) hd
        rw [hrec]
        omega
      · have hrec : (packBits (bits.drop 8)).length = (n - 8 + 7) / 8 :=
          ih (n - 8) (by omega) (bits.drop 8) hd
        rw [hrec]
        omega

theorem getD_out_of_range {α : Type} (l : List α) (k : Nat) (d : α)
    (h : l.length ≤ k) : l.getD k d = d := by
  simp [List.getD_eq_getElem?_getD, List.getElem?_eq_none h]

theorem getD_take (l : List Bool) (k m : Nat) (h : k < m) :
    (l.take m).getD k false = l.getD k false := by
  simp [List.getD_eq_getElem?_getD, List.getElem?_take_of_lt h]

theorem getD_drop (l : List Bool) (m k : Nat) :
    (l.drop m).getD k false = l.getD (m + k) false := by
  simp [List.getD_eq_getElem?_getD, List.getElem?_drop]

theorem packBits_testBit (bits : List Bool) (k : Nat) :
    ((packBits bits).getD (k / 8) 0).testBit (k % 8) = bits.getD k false := by
  generalize hn : bits.length = n
  induction n using Nat.strong_induction_on generalizing bits k with
  | _ n ih =>
    by_cases h : bits = []
    · subst h
      simp [packBits_nil, List.getD]
    · rw [packBits_cons bits h]
      have hpos : 0 < n := by
        subst hn
        exact List.length_pos.mpr h
      rcases Nat.lt_or_ge k 8 with hk | hk
      · have hdiv : k / 8 = 0 := Nat.div_eq_of_lt hk
        have hmod : k % 8 = k := Nat.mod_eq_of_lt hk
        rw [hdiv, hmod]
        show (packByte (bits.take 8)).testBit k = bits.getD k false
        rw [packByte_testBit, getD_take bits k 8 hk]
      · have hdiv : k / 8 = (k - 8) / 8 + 1 := by omega
        rw [hdiv]
        show (((packBits (bits.drop 8)).getD ((k - 8) / 8) 0)).testBit (k % 8) = _
        have hmod : k % 8 = (k - 8) % 8 := by omega
        rw [hmod]
        have hd : (bits.drop 8).length = n - 8 := by
          simp [List.length_drop, hn]
        have hrec := ih (n - 8) (by omega) (bits.drop 8) (k - 8) hd
        rw [hrec, getD_drop]
        congr 1
        omega

theorem unpackBits_length (bytes : List Nat) :
    (unpackBits bytes).length = 8 * bytes.length := by
  induction bytes with
  | nil => rfl
  | cons b t ih =>
    have h : unpackBits (b :: t) =
        ((List.range 8).map fun i => b.testBit i) ++ unpackBits t := by
      simp [unpackBits]
    rw [h, List.length_append, ih]
    simp only [List.length_map, List.length_range, List.length_cons]
    omega

theorem assocLookup_enumFrom (vs : List Nat) (k i : Nat) :
    assocLookup (List.enumFrom k vs) (k + i) = vs[i]? := by
  induction vs generalizing k i with
  | nil => simp [List.enumFrom, assocLookup]
  | cons v t ih =>
    show assocLookup ((k, v) :: List.enumFrom (k + 1) t) (k + i) = _
    cases i with
    | zero => simp [assocLookup]
    | succ j =>
      have hne : ¬ (k = k + (j + 1)) := by omega
      show (if k = k + (j + 1) then some v else
        assocLookup (List.enumFrom (k + 1) t) (k + (j + 1))) = _
      rw [if_neg hne]
      have harg : k + (j + 1) = (k + 1) + j := by omega
      rw [harg, ih (k + 1) j]
      simp

theorem seq_getValues_length {α : Type} (b : ModbusSequentialDataBlock α)
    (a n : Nat) (l : List α) (h : b.getValues a n = .ok l) : l.length = n := by
  unfold ModbusSequentialDataBlock.getValues at h
  by_cases hv : b.validate a n = true
  · rw [if_pos hv] at h
    have hvb : b.address ≤ a ∧ a + n ≤ b.address + b.values.length := by
      unfold ModbusSequentialDataBlock.validate at hv
      simp only [Bool.and_eq_true, decide_eq_true_eq] at hv
      exact hv
    have hl : (b.values.drop (a - b.address)).take n = l := by
      injection h
    subst hl
    rw [List.length_take, List.length_drop]
    omega
  · rw [if_neg hv] at h
    exact absurd h (by simp)

/-! ## Claim theorems -/

/-- C1: for every sparse data block, start address `a` and count `n ≥ 1`,
`getValues(a, n)` returns `ILLEGAL_ADDRESS` iff at least one address of
`{a, …, a+n-1}` has no value in the block; otherwise it returns the list
of the `n` present values in address order. -/
theorem sparse_getValues_illegal_address_iff
    (b : ModbusSparseDataBlock) (a n : Nat) (hn : 1 ≤ n) :
    (b.getValues a n = .error .ILLEGAL_ADDRESS ↔
      ∃ k, k < n ∧ assocLookup b.values (a + k) = none) ∧
    ((∀ k, k < n → assocLookup b.values (a + k) ≠ none) →
      ∃ l, b.getValues a n = .ok l ∧ l.length = n ∧
        ∀ k, k < n → assocLookup b.values (a + k) = some (l.getD k 0)) := by
  clear hn
  by_cases hv : b.validate a n = true
  · have hall : ∀ k, k < n → (assocLookup b.values (a + k)).isSome := by
      intro k hk
      have := List.all_eq_true.mp hv k (List.mem_range.mpr hk)
      simpa using this
    have hok : b.getValues a n =
        .ok ((List.range n).map fun k => (assocLookup b.values (a + k)).getD 0) := by
      unfold ModbusSparseDataBlock.getValues
      rw [if_pos hv]
    constructor
    · rw [hok]
      constructor
      · intro h
        exact absurd h (by simp)
      · rintro ⟨k, hk, hnone⟩
        have := hall k hk
        rw [hnone] at this
        simp at this
    · intro _
      refine ⟨_, hok, by simp, ?_⟩
      intro k hk
      have hsome := hall k hk
      obtain ⟨v, hv2⟩ := Option.isSome_iff_exists.mp hsome
      have hget : ((List.range n).map fun k =>
          (assocLookup b.values (a + k)).getD 0).getD k 0 =
          (assocLookup b.values (a + k)).getD 0 := by
        rw [List.getD_eq_getElem?_getD, List.getElem?_map, List.getElem?_range hk]
        rfl
      rw [hget, hv2]
      rfl
  · have herr : b.getValues a n = .error .ILLEGAL_ADDRESS := by
      unfold ModbusSparseDataBlock.getValues
      rw [if_neg hv]
    have hmiss : ∃ k, k < n ∧ assocLookup b.values (a + k) = none := by
      by_contra hno
      push_neg at hno
      apply hv
      apply List.all_eq_true.mpr
      intro k hk
      have hk2 := List.mem_range.mp hk
      have := hno k hk2
      simpa [Option.isSome_iff_ne_none] using this
    constructor
    · exact ⟨fun _ => hmiss, fun _ => herr⟩
    · intro hpres
      obtain ⟨k, hk, hnone⟩ := hmiss
      exact absurd hnone (hpres k hk)

/-- Witness for C1: on the block holding value 7 at address 5, reading one
value at 5 succeeds with `[7]`, and on the empty block reading one value at
address 117 returns `ILLEGAL_ADDRESS`. -/
theorem sparse_getValues_illegal_address_iff_witness :
    (ModbusSparseDataBlock.mk [] true).getValues 117 1 =
      .error .ILLEGAL_ADDRESS ∧
    ∃ l, (ModbusSparseDataBlock.mk [(5, 7)] true).getValues 5 1 = .ok l ∧
      l.length = 1 ∧ ∀ k, k < 1 → assocLookup [(5, 7)] (5 + k) = some (l.getD k 0) := by
  constructor
  · exact (sparse_getValues_illegal_address_iff ⟨[], true⟩ 117 1 (by decide)).1.mpr
      ⟨0, by decide, by decide⟩
  · exact (sparse_getValues_illegal_address_iff ⟨[(5, 7)], true⟩ 5 1 (by decide)).2
      (by decide)

/-- C4: sparse-block construction succeeds when given `None` (an empty
block), a list (elements stored at addresses `0 .. len-1`), or a mapping
from addresses to a value or a sequence of values, and yields a parameter
error when given a bare scalar. -/
theorem sparse_create_policy :
    (∀ m : Bool, ModbusSparseDataBlock.create m .noneV = .ok ⟨[], m⟩) ∧
    (∀ (m : Bool) (vs : List Nat),
      ModbusSparseDataBlock.create m (.listV vs) = .ok ⟨vs.enum, m⟩ ∧
      ∀ i, assocLookup vs.enum i = vs[i]?) ∧
    (∀ (m : Bool) (entries : List (Nat × SparseValue)),
      ∃ b, ModbusSparseDataBlock.create m (.mapV entries) = .ok b) ∧
    (∀ (m : Bool) (v : Nat),
      ModbusSparseDataBlock.create m (.scalarV v) = .error .parameter) := by
  refine ⟨fun m => rfl, fun m vs => ⟨rfl, fun i => ?_⟩, fun m entries => ⟨_, rfl⟩,
    fun m v => rfl⟩
  have h := assocLookup_enumFrom vs 0 i
  simpa [List.enum] using h

/-- C5: on a fixed (`mutable = false`) sparse block, a `setValues` call
touching an address not already present raises a parameter error; a
runtime-originated write to an unknown address (here on a mutable block)
yields the `ILLEGAL_ADDRESS` exception code instead of raising; and
`setValues` calls touching only present addresses succeed. -/
theorem sparse_setValues_policy
    (b : ModbusSparseDataBlock) (entries : List (Nat × Nat)) :
    (b.mutable = false → touchesAbsent b entries = true →
      b.setValues entries = .error .parameter) ∧
    (touchesAbsent b entries = false →
      b.setValues entries = .ok ⟨writeEntries b.values entries, b.mutable⟩) ∧
    (b.mutable = true → touchesAbsent b entries = true →
      b.runtimeSetValues entries = .error .ILLEGAL_ADDRESS) := by
  refine ⟨fun hm ht => ?_, fun ht => ?_, fun _ ht => ?_⟩
  · unfold ModbusSparseDataBlock.setValues
    rw [hm, ht]
    rfl
  · unfold ModbusSparseDataBlock.setValues
    rw [ht]
    simp
  · unfold ModbusSparseDataBlock.runtimeSetValues
    rw [ht]
    rfl

/-- Witness for C5: concrete instances of the three cases on the block
holding address 1 only. -/
theorem sparse_setValues_policy_witness :
    (ModbusSparseDataBlock.mk [(1, 6720)] false).setValues [(7, 5)] =
      .error .parameter ∧
    (ModbusSparseDataBlock.mk [(1, 6720)] false).setValues [(1, 5)] =
      .ok ⟨[(1, 5)], false⟩ ∧
    (ModbusSparseDataBlock.mk [(1, 6720)] true).runtimeSetValues [(7, 5)] =
      .error .ILLEGAL_ADDRESS := by
  refine ⟨(sparse_setValues_policy ⟨[(1, 6720)], false⟩ [(7, 5)]).1 rfl (by decide),
    ?_, (sparse_setValues_policy ⟨[(1, 6720)], true⟩ [(7, 5)]).2.2 rfl (by decide)⟩
  have h := (sparse_setValues_policy ⟨[(1, 6720)], false⟩ [(1, 5)]).2.1 (by decide)
  have hw : writeEntries [(1, 6720)] [(1, 5)] = [(1, 5)] := by decide
  rw [hw] at h
  exact h

/-- C8: a second `serve_forever` on an already-serving server fails with an
invalid-state (runtime) error, identically for the TCP, TLS and UDP server
variants; the first `serve_forever` succeeds and starts serving. -/
theorem serve_forever_twice_invalid_state (k : ServerKind) :
    serve_forever k .created = .ok .serving ∧
    serve_forever k .serving = .error .invalidState := by
  exact ⟨rfl, rfl⟩

/-- C10: every kind in the library exception hierarchy satisfies
`isError() = true`, and the same predicate classifies protocol exception
responses as errors, so a caller testing a result with `isError()` treats
both alike. -/
theorem exception_hierarchy_isError :
    (∀ k : ModbusExceptionKind, k.isError = true) ∧
    (∀ (k : ModbusExceptionKind) (msg : String),
      (ClientResult.libError k msg).isError = true) ∧
    (∀ (fc : Nat) (c : ExcCodes),
      (ClientResult.response (.exceptionResponse fc c)).isError = true) := by
  exact ⟨fun _ => rfl, fun _ _ => rfl, fun _ _ => rfl⟩

/-- C2: with every holding register equal to 17, processing the inbound
MBAP frame `01 00 00 00 00 06 01 03 00 00 00 01` (device 1, FC 3,
address 0, quantity 1) through the full pipeline produces exactly the
response bytes `01 00 00 00 00 05 01 03 02 00 11`, identically on the TCP
and UDP (SOCKET framing) carriers. -/
theorem server_roundtrip_read_holding_registers (c : Carrier) :
    processInbound c ⟨false, false⟩ (.single testDeviceContext)
      [0x01, 0x00, 0x00, 0x00, 0x00, 0x06, 0x01, 0x03, 0x00, 0x00, 0x00, 0x01] =
    (.single testDeviceContext,
      some [0x01, 0x00, 0x00, 0x00, 0x00, 0x05, 0x01, 0x03, 0x02, 0x00, 0x11]) := by
  cases c <;> decide

/-- C3: for every read-coils quantity in `[1, 2000]` the response carries
`⌈qty/8⌉` payload bytes, bit `k` is stored as the `(k mod 8)`-th bit from
the LSB of byte `⌊k/8⌋`, and every unused high bit of the last byte is
zero; concretely, after writing 21 true bits at address 1 with FC 15,
reading 21 coils at address 1 with FC 1 delivers 24 bits: 21 true then
3 false. -/
theorem packed_bits_encoding :
    (∀ (bits : List Bool) (qty : Nat), 1 ≤ qty → qty ≤ 2000 → bits.length = qty →
      (packBits bits).length = (qty + 7) / 8 ∧
      (∀ k, k < qty →
        ((packBits bits).getD (k / 8) 0).testBit (k % 8) = bits.getD k false) ∧
      (∀ k, qty ≤ k →
        ((packBits bits).getD (k / 8) 0).testBit (k % 8) = false)) ∧
    (updateDatastore (.writeMultipleCoils 1 (List.replicate 21 true))
      testDeviceContext).2 = .writeMultipleCoilsResponse 1 21 ∧
    coilsReadBack = List.replicate 21 true ++ List.replicate 3 false ∧
    coilsReadBack.length = 24 := by
  refine ⟨?_, by decide, by decide, by decide⟩
  intro bits qty _ _ hlen
  refine ⟨by rw [packBits_length, hlen], fun k _ => packBits_testBit bits k, ?_⟩
  intro k hk
  rw [packBits_testBit bits k]
  exact getD_out_of_range bits k false (by omega)

/-- Witness for C3: the universal part applied at 21 bits, all true. -/
theorem packed_bits_encoding_witness :
    (packBits (List.replicate 21 true)).length = (21 + 7) / 8 ∧
    ((packBits (List.replicate 21 true)).getD (20 / 8) 0).testBit (20 % 8) =
      (List.replicate 21 true).getD 20 false ∧
    ((packBits (List.replicate 21 true)).getD (23 / 8) 0).testBit (23 % 8) = false := by
  have h := packed_bits_encoding.1 (List.replicate 21 true) 21
    (by decide) (by decide) (by decide)
  exact ⟨h.1, h.2.1 20 (by decide), h.2.2 23 (by decide)⟩

/-- C6: a well-formed request addressed to a device-id missing from the
server context is dropped silently when `ignore_missing_devices` is set,
and otherwise answered with exception code 11
(`GATEWAY_TARGET_FAILED_TO_RESPOND`); in neither case is the connection
closed. -/
theorem missing_device_handling (flags : ServerFlags)
    (ds : List (Nat × ModbusDeviceContext)) (dev_id : Nat) (pdu : ModbusPdu)
    (hmiss : assocLookup ds dev_id = none)
    (hnb : dev_id = 0 → flags.broadcast_enable = false) :
    (flags.ignore_missing_devices = true →
      handleRequest flags (.multi ds) dev_id pdu = (.multi ds, .drop)) ∧
    (flags.ignore_missing_devices = false →
      handleRequest flags (.multi ds) dev_id pdu =
        (.multi ds, .reply (.exceptionResponse pdu.functionCode
          .GATEWAY_TARGET_FAILED_TO_RESPOND))) ∧
    ExcCodes.GATEWAY_TARGET_FAILED_TO_RESPOND.value = 11 ∧
    (handleRequest flags (.multi ds) dev_id pdu).2 ≠ ServerAction.close := by
  have hguard : (decide (dev_id = 0) && flags.broadcast_enable) = false := by
    by_cases h0 : dev_id = 0
    · simp [h0, hnb h0]
    · simp [h0]
  have hnorm : handleRequest flags (.multi ds) dev_id pdu =
      handleNormal flags (.multi ds) dev_id pdu := by
    unfold handleRequest
    rw [hguard]
    rfl
  have hmain : ∀ ig : Bool, flags.ignore_missing_devices = ig →
      handleNormal flags (.multi ds) dev_id pdu =
        (if ig then ((.multi ds : ModbusServerContext), ServerAction.drop)
         else (.multi ds, .reply (.exceptionResponse pdu.functionCode
           .GATEWAY_TARGET_FAILED_TO_RESPOND))) := by
    intro ig hig
    unfold handleNormal
    show (match lookupDevice (.multi ds) dev_id with
      | none => _
      | some d => _) = _
    have hl : lookupDevice (.multi ds) dev_id = none := hmiss
    rw [hl, hig]
  refine ⟨fun hig => ?_, fun hig => ?_, rfl, ?_⟩
  · rw [hnorm, hmain true hig]
    rfl
  · rw [hnorm, hmain false hig]
    rfl
  · rw [hnorm, hmain flags.ignore_missing_devices rfl]
    cases flags.ignore_missing_devices <;> simp

/-- Witness for C6: device-id 5 is absent from an empty multi-mode context;
with `ignore_missing_devices` the request is dropped, without it the
exception-11 reply is produced. -/
theorem missing_device_handling_witness :
    handleRequest ⟨false, true⟩ (.multi []) 5 (.readHoldingRegisters 0 1) =
      (.multi [], .drop) ∧
    handleRequest ⟨false, false⟩ (.multi []) 5 (.readHoldingRegisters 0 1) =
      (.multi [], .reply (.exceptionResponse 3
        .GATEWAY_TARGET_FAILED_TO_RESPOND)) := by
  constructor
  · exact (missing_device_handling ⟨false, true⟩ [] 5 (.readHoldingRegisters 0 1)
      rfl (fun h => absurd h (by decide))).1 rfl
  · exact (missing_device_handling ⟨false, false⟩ [] 5 (.readHoldingRegisters 0 1)
      rfl (fun h => absurd h (by decide))).2.1 rfl

/-- C7: a request with `dev_id = 0` under enabled broadcast semantics is
applied to the datastore of every device of the server context and no
response bytes are produced on the wire; when `broadcast_enable` disables
broadcast semantics, the request is handled as a normal request with
`dev_id = 0`. -/
theorem broadcast_handling (flags : ServerFlags) (ctx : ModbusServerContext)
    (pdu : ModbusPdu) :
    (flags.broadcast_enable = true →
      handleRequest flags ctx 0 pdu = (applyBroadcast pdu ctx, .drop) ∧
      (∀ ds, ctx = .multi ds → applyBroadcast pdu ctx =
        .multi (ds.map fun p => (p.1, (updateDatastore pdu p.2).1))) ∧
      (∀ d, ctx = .single d →
        applyBroadcast pdu ctx = .single (updateDatastore pdu d).1) ∧
      (∀ buf tid pduBytes, mbapDecode buf = some (tid, 0, pduBytes) →
        decodeRequest pduBytes = some pdu →
        (serverProcessFrame flags ctx buf).2 = none)) ∧
    (flags.broadcast_enable = false →
      handleRequest flags ctx 0 pdu = handleNormal flags ctx 0 pdu) := by
  constructor
  · intro hb
    have hreq : handleRequest flags ctx 0 pdu = (applyBroadcast pdu ctx, .drop) := by
      unfold handleRequest
      rw [hb]
      rfl
    refine ⟨hreq, ?_, ?_, ?_⟩
    · intro ds hds
      subst hds
      rfl
    · intro d hd
      subst hd
      rfl
    · intro buf tid pduBytes hdec hpdu
      unfold serverProcessFrame
      rw [hdec]
      show (match decodeRequest pduBytes with
        | none => (ctx, none)
        | some p => _).2 = none
      rw [hpdu]
      show (match handleRequest flags ctx 0 pdu with
        | (ctx2, .reply r) => (ctx2, some (mbapEncode tid 0 (encodeResponse r)))
        | (ctx2, _) => (ctx2, none)).2 = none
      rw [hreq]
  · intro hb
    unfold handleRequest
    rw [hb]
    rfl

/-- Witness for C7: a broadcast FC 6 write on a two-device context updates
both devices and yields no reply; with broadcast disabled the same frame is
routed normally (and device-id 0 is then missing from the context). -/
theorem broadcast_handling_witness :
    handleRequest ⟨true, false⟩
      (.multi [(1, testDeviceContext), (2, testDeviceContext)]) 0
      (.writeSingleRegister 0 5) =
      (.multi [(1, (updateDatastore (.writeSingleRegister 0 5) testDeviceContext).1),
               (2, (updateDatastore (.writeSingleRegister 0 5) testDeviceContext).1)],
        .drop) ∧
    handleRequest ⟨false, false⟩
      (.multi [(1, testDeviceContext), (2, testDeviceContext)]) 0
      (.writeSingleRegister 0 5) =
      handleNormal ⟨false, false⟩
        (.multi [(1, testDeviceContext), (2, testDeviceContext)]) 0
        (.writeSingleRegister 0 5) := by
  constructor
  · have h := (broadcast_handling ⟨true, false⟩
      (.multi [(1, testDeviceContext), (2, testDeviceContext)])
      (.writeSingleRegister 0 5)).1 rfl
    rw [h.1, h.2.1 [(1, testDeviceContext), (2, testDeviceContext)] rfl]
    rfl
  · exact (broadcast_handling ⟨false, false⟩
      (.multi [(1, testDeviceContext), (2, testDeviceContext)])
      (.writeSingleRegister 0 5)).2 rfl

/-- C9 counterexample: a coils read of count 1 delivers a payload of eight
bits, not exactly one value, so the original claim fails for bit reads. -/
theorem read_payload_exact_count_counterexample :
    deliveredCoils testDeviceContext 1 1 = .ok (List.replicate 8 false) ∧
    (List.replicate 8 false).length ≠ 1 := by
  decide

/-- C9 (amended): every read delivers either an exception or an untruncated
payload — exactly `n` values for register reads, and `n` rounded up to a
whole number of bytes (`8·⌈n/8⌉` bits, never fewer than `n`) for bit
reads. -/
theorem read_payload_never_truncated (ctx : ModbusDeviceContext) (a n : Nat) :
    (∀ regs, deliveredRegisters ctx a n = .ok regs → regs.length = n) ∧
    (∀ bits, deliveredCoils ctx a n = .ok bits →
      bits.length = 8 * ((n + 7) / 8) ∧ n ≤ bits.length) := by
  constructor
  · intro regs h
    exact seq_getValues_length ctx.hr a n regs h
  · intro bits h
    unfold deliveredCoils at h
    cases hg : ctx.co.getValues a n with
    | ok bits0 =>
      rw [hg] at h
      simp only [] at h
      have hb : unpackBits (packBits bits0) = bits := by
        injection h
      have hlen0 : bits0.length = n := seq_getValues_length ctx.co a n bits0 hg
      subst hb
      constructor
      · rw [unpackBits_length, packBits_length, hlen0]
      · rw [unpackBits_length, packBits_length, hlen0]
        omega
    | error c =>
      rw [hg] at h
      exact absurd h (by simp)

/-- Witness for the amended C9: a 4-register read delivers exactly 4
registers and a 1-coil read delivers 8 untruncated bits. -/
theorem read_payload_never_truncated_witness :
    (List.replicate 4 (17 : Nat)).length = 4 ∧
    (List.replicate 8 false).length = 8 * ((1 + 7) / 8) ∧
    1 ≤ (List.replicate 8 false).length := by
  refine ⟨(read_payload_never_truncated testDeviceContext 0 4).1
    (List.replicate 4 17) (by decide), ?_, ?_⟩
  · exact ((read_payload_never_truncated testDeviceContext 1 1).2
      (List.replicate 8 false) (by decide)).1
  · exact ((read_payload_never_truncated testDeviceContext 1 1).2
      (List.replicate 8 false) (by decide)).2

end Pymodbus
